/-
Verification of the Gesture-Voxel core against its natural-language
specification.

Shallow embedding of the JavaScript sources:
  * `src/core/VoxelRenderer.js`   (class `VoxelWorld`, and the geometric
    helpers `getHitFaceNormal` / the voxel-face candidate step of
    `raycastToGrid` from class `VoxelRenderer`)
  * `src/utils/HistoryManager.js` (class `HistoryManager`)
  * `src/gesture/GestureRecognizer.js` (class `GestureRecognizer`)
  * `src/gesture/HandTracker.js`  (class `GestureActions`)
  * `src/utils/constants.js`

Modelling conventions:
  * JavaScript numbers are embedded as exact rationals (`ℚ`); integer grid
    coordinates as `Int`.  Comparisons of Euclidean distances
    `Math.sqrt(e) < t` (with `t ≥ 0`) are translated to the equivalent
    squared comparisons `e < t^2`, so every definition stays computable.
  * The JS `Map` keyed by the string `"x,y,z"` is embedded as an
    insertion-ordered association list keyed by the coordinate triple;
    `getKey`/`parseKey` form a bijection between integer triples and these
    key strings, so the triple itself is used as the key.
  * A thrown `TypeError` (property access on `undefined`, from an
    out-of-range landmark index) is embedded as `Option.none`: the
    recognizer pipeline is threaded through `Option`, and array accesses
    use `List.get?`.
  * Change notifications (`notifyListeners`) are embedded by returning,
    next to the new world, the list of world states passed to listeners,
    one element per synchronous notification, in order.
  * `Date.now()` is embedded as an explicit time parameter (integer
    milliseconds, as `Int`); the swipe detector's elapsed time `dt` is the
    millisecond difference divided by 1000, as `ℚ`.
-/
import Mathlib

namespace GestureVoxel

/-! ## constants.js -/

def GRID_SIZE : Int := 16

def PINCH_THRESHOLD : ℚ := 7/100

def SWIPE_VELOCITY : ℚ := 15/100

def SWIPE_MIN_DISTANCE : ℚ := 2/10

def ACTION_DEBOUNCE : Int := 300

def COLOR_CHANGE_DEBOUNCE : Int := 500

def UNDO_DEBOUNCE : Int := 600

def COLORS_length : Int := 8

/-! ## VoxelWorld (src/core/VoxelRenderer.js, second class)

The store `this.voxels` is a JS `Map` keyed by `getKey(x,y,z) = "x,y,z"`,
holding `{ colorIndex }`.  A JS `Map` iterates in insertion order, `set` on
an existing key updates the value in place, `delete` removes the entry.  We
embed it as an insertion-ordered association list keyed by the coordinate
triple (`getKey` is injective on integer triples, `parseKey` its inverse).
-/

/-- A voxel-store key: the integer coordinate triple behind `"x,y,z"`. -/
abbrev Coord := Int × Int × Int

/-- One element of `getAllVoxels()` / `toJSON()`: `{ x, y, z, colorIndex }`. -/
structure VoxelRec where
  x : Int
  y : Int
  z : Int
  colorIndex : Int
  deriving DecidableEq, Repr

/-- JS `Map.has`. -/
def mapHas (m : List (Coord × Int)) (k : Coord) : Bool :=
  m.any (fun p => p.1 = k)

/-- JS `Map.get` (as an `Option`). -/
def mapGet (m : List (Coord × Int)) (k : Coord) : Option Int :=
  (m.find? (fun p => p.1 = k)).map (fun p => p.2)

/-- JS `Map.set`: update in place when the key is present, else append. -/
def mapSet (m : List (Coord × Int)) (k : Coord) (v : Int) : List (Coord × Int) :=
  if mapHas m k then m.map (fun p => if p.1 = k then (k, v) else p)
  else m ++ [(k, v)]

/-- JS `Map.delete`. -/
def mapDelete (m : List (Coord × Int)) (k : Coord) : List (Coord × Int) :=
  m.filter (fun p => ¬ p.1 = k)

/-- The sparse voxel store of class `VoxelWorld`. -/
structure VoxelWorld where
  voxels : List (Coord × Int)
  deriving DecidableEq, Repr

namespace VoxelWorld

/-- `new VoxelWorld()`: empty store. -/
def init : VoxelWorld := ⟨[]⟩

/-- `isValidPosition(x, y, z)`: bounds check against `[0, GRID_SIZE)`. -/
def isValidPosition (x y z : Int) : Bool :=
  0 ≤ x && x < GRID_SIZE && 0 ≤ y && y < GRID_SIZE && 0 ≤ z && z < GRID_SIZE

/-- Result of `addVoxel`: JS returns `false`, or `{ added: true, wasNew }`. -/
inductive AddResult where
  | notAdded : AddResult
  | added (wasNew : Bool) : AddResult
  deriving DecidableEq, Repr

/-- `addVoxel(x, y, z, colorIndex)`.  The third component lists the world
states observed by listeners, one per `notifyListeners()` call. -/
def addVoxel (w : VoxelWorld) (x y z colorIndex : Int) :
    AddResult × VoxelWorld × List VoxelWorld :=
  if ¬ isValidPosition x y z then (.notAdded, w, [])
  else
    let existed := mapHas w.voxels (x, y, z)
    let w' : VoxelWorld := ⟨mapSet w.voxels (x, y, z) colorIndex⟩
    (.added (! existed), w', [w'])

/-- `removeVoxel(x, y, z)`: first component is the `removed` report. -/
def removeVoxel (w : VoxelWorld) (x y z : Int) :
    Bool × VoxelWorld × List VoxelWorld :=
  let existed := mapHas w.voxels (x, y, z)
  if existed then
    let w' : VoxelWorld := ⟨mapDelete w.voxels (x, y, z)⟩
    (existed, w', [w'])
  else (existed, w, [])

/-- `hasVoxel(x, y, z)`. -/
def hasVoxel (w : VoxelWorld) (x y z : Int) : Bool :=
  mapHas w.voxels (x, y, z)

/-- `getVoxel(x, y, z)` (the stored `colorIndex`, when present). -/
def getVoxel (w : VoxelWorld) (x y z : Int) : Option Int :=
  mapGet w.voxels (x, y, z)

/-- `getAllVoxels()`: the entries, in insertion order, as records. -/
def getAllVoxels (w : VoxelWorld) : List VoxelRec :=
  w.voxels.map (fun p => ⟨p.1.1, p.1.2.1, p.1.2.2, p.2⟩)

/-- `getCount()`. -/
def getCount (w : VoxelWorld) : Nat :=
  w.voxels.length

/-- `clear()`: empties the store, one notification. -/
def clear (_w : VoxelWorld) : VoxelWorld × List VoxelWorld :=
  (⟨[]⟩, [⟨[]⟩])

/-- `toJSON()`. -/
def toJSON (w : VoxelWorld) : List VoxelRec :=
  getAllVoxels w

/-- The `for (const voxel of data)` loop body of `fromJSON`, as structural
recursion over the remaining records: `addVoxel` each record in order,
collecting the notification snapshots. -/
def fromJSONLoop (acc : VoxelWorld) (notes : List VoxelWorld) :
    List VoxelRec → VoxelWorld × List VoxelWorld
  | [] => (acc, notes)
  | v :: rest =>
    let r := addVoxel acc v.x v.y v.z v.colorIndex
    fromJSONLoop r.2.1 (notes ++ r.2.2) rest

/-- `fromJSON(data)`: `this.voxels.clear()` (no notification), then
`addVoxel` for each record (each successful add notifies once). -/
def fromJSON (_w : VoxelWorld) (data : List VoxelRec) :
    VoxelWorld × List VoxelWorld :=
  fromJSONLoop ⟨[]⟩ [] data

/-- `getState()` is `JSON.stringify(this.toJSON())`; a serialized state is
embedded by its parsed content (the JSON round trip on a list of integer
records is exact). -/
def getState (w : VoxelWorld) : List VoxelRec :=
  toJSON w

/-- `setState(stateString)`: `JSON.parse` then `fromJSON`. -/
def setState (w : VoxelWorld) (s : List VoxelRec) :
    VoxelWorld × List VoxelWorld :=
  fromJSON w s

end VoxelWorld

/-! ## HistoryManager (src/utils/HistoryManager.js)

`this.history` is a JS array, `this.currentIndex` a number starting at -1
(embedded as `Int`), `this.maxHistory` the cap (constructor default 50).
`undo`/`redo` return the entry now pointed to, or `null` (embedded as
`Option`, with `none` covering both `null` and an out-of-range read).
-/

structure HistoryManager (α : Type) where
  history : List α
  currentIndex : Int
  maxHistory : Nat
  deriving DecidableEq, Repr

namespace HistoryManager

/-- `new HistoryManager(maxHistory = 50)`. -/
def init (α : Type) (maxHistory : Nat := 50) : HistoryManager α :=
  ⟨[], -1, maxHistory⟩

/-- `saveState(state)`: truncate after the cursor when not at the end,
push, move the cursor to the new last index, evict the oldest entry
(shifting the cursor down) when over the cap. -/
def saveState (h : HistoryManager α) (state : α) : HistoryManager α :=
  let hist :=
    if h.currentIndex < (h.history.length : Int) - 1 then
      h.history.take (h.currentIndex + 1).toNat
    else h.history
  let hist := hist ++ [state]
  let idx : Int := (hist.length : Int) - 1
  if (hist.length : Int) > (h.maxHistory : Int) then
    ⟨hist.drop 1, idx - 1, h.maxHistory⟩
  else
    ⟨hist, idx, h.maxHistory⟩

/-- `undo()`: decrement when `currentIndex > 0` and return the entry now
pointed to; otherwise a no-op returning `null`. -/
def undo (h : HistoryManager α) : HistoryManager α × Option α :=
  if h.currentIndex > 0 then
    let i := h.currentIndex - 1
    ({ h with currentIndex := i }, h.history.get? i.toNat)
  else (h, none)

/-- `redo()`: increment when `currentIndex < length - 1` and return the
entry now pointed to; otherwise a no-op returning `null`. -/
def redo (h : HistoryManager α) : HistoryManager α × Option α :=
  if h.currentIndex < (h.history.length : Int) - 1 then
    let i := h.currentIndex + 1
    ({ h with currentIndex := i }, h.history.get? i.toNat)
  else (h, none)

/-- `canUndo()`. -/
def canUndo (h : HistoryManager α) : Bool :=
  h.currentIndex > 0

/-- `canRedo()`. -/
def canRedo (h : HistoryManager α) : Bool :=
  h.currentIndex < (h.history.length : Int) - 1

end HistoryManager

/-! ## GestureActions (src/gesture/HandTracker.js, second class)

Only the state and handlers the claims are about are embedded: the world,
the history manager, the current color, and the two debounce timestamps
involved in mutating actions and undo/redo.  The renderer calls
(`setCursorPosition`, `orbitCamera`) are external presentation; the
geometric `handToGridPosition`/`raycastToGrid` pipeline is passed in as
the already-computed `gridPos` argument (an `Option GridTarget`, `none`
embedding a `null` raycast result).
-/

inductive Mode where
  | PLACE | DELETE | ORBIT | COLOR
  deriving DecidableEq, Repr

/-- A `raycastToGrid` result `{ x, y, z, distance, hitVoxel? }`; the
camera-distance ranking happens inside the (external) renderer, so only
the fields read by `GestureActions` are kept. -/
structure GridTarget where
  x : Int
  y : Int
  z : Int
  hitVoxel : Option Coord
  deriving DecidableEq, Repr

structure GestureActions where
  world : VoxelWorld
  historyManager : HistoryManager (List VoxelRec)
  currentColorIndex : Int
  currentMode : Mode
  lastActionTime : Int
  lastUndoTime : Int
  deriving DecidableEq, Repr

namespace GestureActions

/-- `new GestureActions(...)` over a fresh world and history. -/
def init : GestureActions :=
  ⟨VoxelWorld.init, HistoryManager.init _ 50, 0, .PLACE, 0, 0⟩

/-- `canPerformAction(lastTime, debounce)` at wall-clock time `now`. -/
def canPerformAction (lastTime debounce now : Int) : Bool :=
  now - lastTime > debounce

/-- `setMode(mode)` (the mode-change notification itself is external UI). -/
def setMode (ga : GestureActions) (m : Mode) : GestureActions :=
  { ga with currentMode := m }

/-- `handlePinch(position)`: on a valid target with the action cooldown
elapsed, snapshot the current state, then add a voxel at the target. -/
def handlePinch (ga : GestureActions) (gridPos : Option GridTarget) (now : Int) :
    GestureActions :=
  let ga := setMode ga .PLACE
  match gridPos with
  | none => ga
  | some gp =>
    if canPerformAction ga.lastActionTime ACTION_DEBOUNCE now then
      let hm := ga.historyManager.saveState (ga.world.getState)
      let r := ga.world.addVoxel gp.x gp.y gp.z ga.currentColorIndex
      { ga with historyManager := hm, world := r.2.1, lastActionTime := now }
    else ga

/-- `handleFist(position)`: on a target with a struck voxel and the action
cooldown elapsed, snapshot the current state, then remove that voxel. -/
def handleFist (ga : GestureActions) (gridPos : Option GridTarget) (now : Int) :
    GestureActions :=
  let ga := setMode ga .DELETE
  match gridPos with
  | none => ga
  | some gp =>
    match gp.hitVoxel with
    | none => ga
    | some hv =>
      if canPerformAction ga.lastActionTime ACTION_DEBOUNCE now then
        let hm := ga.historyManager.saveState (ga.world.getState)
        let r := ga.world.removeVoxel hv.1 hv.2.1 hv.2.2
        { ga with historyManager := hm, world := r.2.1, lastActionTime := now }
      else ga

/-- `handleSwipeLeft()`: with the undo cooldown elapsed, pop one state off
the history and, when one came back, restore the world from it. -/
def handleSwipeLeft (ga : GestureActions) (now : Int) : GestureActions :=
  if canPerformAction ga.lastUndoTime UNDO_DEBOUNCE now then
    let r := ga.historyManager.undo
    let w :=
      match r.2 with
      | some s => (ga.world.setState s).1
      | none => ga.world
    { ga with historyManager := r.1, world := w, lastUndoTime := now }
  else ga

/-- `handleSwipeRight()`: with the undo cooldown elapsed, advance the
history cursor and, when an entry came back, restore the world from it. -/
def handleSwipeRight (ga : GestureActions) (now : Int) : GestureActions :=
  if canPerformAction ga.lastUndoTime UNDO_DEBOUNCE now then
    let r := ga.historyManager.redo
    let w :=
      match r.2 with
      | some s => (ga.world.setState s).1
      | none => ga.world
    { ga with historyManager := r.1, world := w, lastUndoTime := now }
  else ga

end GestureActions

/-! ## GestureRecognizer (src/gesture/GestureRecognizer.js)

Landmark array accesses go through `List.get?`; a `none` propagating out
of the `Option` pipeline embeds the `TypeError` JavaScript throws when a
distance is computed from an `undefined` landmark.  The bare
`position: landmarks[i]` fields of the results do NOT throw on an
out-of-range index in JS (they just store `undefined`), so they stay
`Option`-valued without failing the call.

`distance` computes `Math.sqrt(dx²+dy²+dz²)`; every use compares it
against a nonnegative quantity, so the embedding keeps the square
(`distanceSq`) and squares the other side of each comparison.
-/

inductive Gesture where
  | NONE | POINT | PINCH | FIST | PALM | PEACE | SWIPE_LEFT | SWIPE_RIGHT
  deriving DecidableEq, Repr

structure Landmark where
  x : ℚ
  y : ℚ
  z : ℚ
  deriving DecidableEq, Repr

/-- Hand-landmark indices (constants.js `HAND_LANDMARKS`). -/
def WRIST : Nat := 0

def THUMB_MCP : Nat := 2

def THUMB_IP : Nat := 3

def THUMB_TIP : Nat := 4

def INDEX_MCP : Nat := 5

def INDEX_PIP : Nat := 6

def INDEX_TIP : Nat := 8

def MIDDLE_MCP : Nat := 9

def MIDDLE_PIP : Nat := 10

def MIDDLE_TIP : Nat := 12

def RING_MCP : Nat := 13

def RING_PIP : Nat := 14

def RING_TIP : Nat := 16

def PINKY_MCP : Nat := 17

def PINKY_PIP : Nat := 18

def PINKY_TIP : Nat := 20

/-- The square of `distance(landmark1, landmark2)`. -/
def distanceSq (a b : Landmark) : ℚ :=
  (a.x - b.x) ^ 2 + (a.y - b.y) ^ 2 + (a.z - b.z) ^ 2

/-- `distance` on possibly-`undefined` landmarks: JS throws on property
access of `undefined`, embedded as `none`. -/
def distanceSq? (a b : Option Landmark) : Option ℚ :=
  match a, b with
  | some a, some b => some (distanceSq a b)
  | _, _ => none

/-- `landmarks[i]` as an `Option`. -/
def lm (l : List Landmark) (i : Nat) : Option Landmark :=
  l.get? i

/-- `isFingerExtended(landmarks, tip, pip, mcp)`:
`tipToMCP > pipToMCP * 1.2`, compared on squares (`1.2² = 36/25`). -/
def isFingerExtended (l : List Landmark) (tip pip mcp : Nat) : Option Bool := do
  let tipToMCP ← distanceSq? (lm l tip) (lm l mcp)
  let pipToMCP ← distanceSq? (lm l pip) (lm l mcp)
  pure (tipToMCP > pipToMCP * (36/25))

/-- `isThumbExtended(landmarks)`: lateral comparison against the index
knuckle, `tipToIndexMCP > mcpToIndexMCP`, compared on squares. -/
def isThumbExtended (l : List Landmark) : Option Bool := do
  let tipToIndexMCP ← distanceSq? (lm l THUMB_TIP) (lm l INDEX_MCP)
  let mcpToIndexMCP ← distanceSq? (lm l THUMB_MCP) (lm l INDEX_MCP)
  pure (tipToIndexMCP > mcpToIndexMCP)

/-- The record built by `getExtendedFingers(landmarks)`. -/
structure Fingers where
  thumb : Bool
  index : Bool
  middle : Bool
  ring : Bool
  pinky : Bool
  deriving DecidableEq, Repr

/-- `getExtendedFingers(landmarks)`. -/
def getExtendedFingers (l : List Landmark) : Option Fingers := do
  let thumb ← isThumbExtended l
  let index ← isFingerExtended l INDEX_TIP INDEX_PIP INDEX_MCP
  let middle ← isFingerExtended l MIDDLE_TIP MIDDLE_PIP MIDDLE_MCP
  let ring ← isFingerExtended l RING_TIP RING_PIP RING_MCP
  let pinky ← isFingerExtended l PINKY_TIP PINKY_PIP PINKY_MCP
  pure ⟨thumb, index, middle, ring, pinky⟩

/-- `Object.values(fingers).filter(Boolean).length`. -/
def Fingers.extendedCount (f : Fingers) : Nat :=
  (if f.thumb then 1 else 0) + (if f.index then 1 else 0) +
  (if f.middle then 1 else 0) + (if f.ring then 1 else 0) +
  (if f.pinky then 1 else 0)

/-- `isPinching(landmarks)`: thumb-tip to index-tip distance below
`PINCH_THRESHOLD`, compared on squares. -/
def isPinching (l : List Landmark) : Option Bool := do
  let d ← distanceSq? (lm l THUMB_TIP) (lm l INDEX_TIP)
  pure (d < PINCH_THRESHOLD ^ 2)

/-- `isFist(landmarks)`: at most one extended finger. -/
def isFist (l : List Landmark) : Option Bool := do
  let f ← getExtendedFingers l
  pure (f.extendedCount ≤ 1)

/-- `isOpenPalm(landmarks)`: at least four extended fingers. -/
def isOpenPalm (l : List Landmark) : Option Bool := do
  let f ← getExtendedFingers l
  pure (4 ≤ f.extendedCount)

/-- `isPeaceSign(landmarks)`. -/
def isPeaceSign (l : List Landmark) : Option Bool := do
  let f ← getExtendedFingers l
  pure (f.index && f.middle && !f.ring && !f.pinky)

/-- `isPointing(landmarks)`. -/
def isPointing (l : List Landmark) : Option Bool := do
  let f ← getExtendedFingers l
  pure (f.index && !f.middle && !f.ring && !f.pinky)

/-- The rolling state of `GestureRecognizer` used by recognition
(`lastGesture`/`gestureHoldTime` are set in the constructor but never
read, and are omitted). -/
structure RecState where
  previousHandPosition : Option (ℚ × ℚ × ℚ)
  swipeStartPosition : Option (ℚ × ℚ)
  swipeStartTime : Option Int
  deriving DecidableEq, Repr

/-- `new GestureRecognizer()`. -/
def RecState.init : RecState := ⟨none, none, none⟩

/-- The velocity test `distance / dt > SWIPE_VELOCITY`, on squares.
In JS (IEEE floats): for `dt < 0` the quotient is negative, hence below
the threshold; for `dt = 0` it is `+Infinity` (the guard upstream forces
`distance > 0.2 > 0`), hence above; for `dt > 0` the comparison squares
to `distSq > (SWIPE_VELOCITY * dt)²`. -/
def velocityExceeds (distSq dt : ℚ) : Bool :=
  if dt < 0 then false
  else if dt = 0 then true
  else distSq > (SWIPE_VELOCITY * dt) ^ 2

/-- `detectSwipe(landmarks)` at wall-clock time `now` (ms): returns the
updated rolling state and the emitted swipe, if any.  `none` overall
embeds a throw (impossible for a nonempty landmark list). -/
def detectSwipe (st : RecState) (l : List Landmark) (now : Int) :
    Option (RecState × Option Gesture) := do
  let wrist ← lm l WRIST
  match st.swipeStartPosition with
  | none =>
    pure ({ st with swipeStartPosition := some (wrist.x, wrist.y),
                    swipeStartTime := some now }, none)
  | some start =>
    let dx := wrist.x - start.1
    let dy := wrist.y - start.2
    let distSq := dx * dx + dy * dy
    -- `currentTime - this.swipeStartTime`: JS coerces a null start time
    -- to 0 in subtraction.
    let dt : ℚ := ((now - st.swipeStartTime.getD 0 : Int) : ℚ) / 1000
    if dt > 1/2 then
      pure ({ st with swipeStartPosition := some (wrist.x, wrist.y),
                      swipeStartTime := some now }, none)
    else if distSq > SWIPE_MIN_DISTANCE ^ 2 then
      if velocityExceeds distSq dt then
        pure ({ st with swipeStartPosition := none, swipeStartTime := none },
              if |dx| > |dy| then
                some (if dx > 0 then Gesture.SWIPE_LEFT else Gesture.SWIPE_RIGHT)
              else none)
      else pure (st, none)
    else pure (st, none)

/-- A `recognize` result `{ gesture, confidence, position? }`. -/
structure RecoResult where
  gesture : Gesture
  confidence : ℚ
  position : Option Landmark
  deriving DecidableEq, Repr

/-- `recognize(landmarks)` at wall-clock time `now`; the input is
`Option`-wrapped so `none` embeds a missing (`null`/`undefined`) argument.
`none` overall embeds a thrown `TypeError`. -/
def recognize (st : RecState) (input : Option (List Landmark)) (now : Int) :
    Option (RecState × RecoResult) :=
  match input with
  | none =>
    some ({ st with previousHandPosition := none, swipeStartPosition := none },
          ⟨.NONE, 0, none⟩)
  | some l =>
    if l.length = 0 then
      some ({ st with previousHandPosition := none, swipeStartPosition := none },
            ⟨.NONE, 0, none⟩)
    else do
      let sw ← detectSwipe st l now
      let st' := sw.1
      match sw.2 with
      | some g => pure (st', ⟨g, 9/10, none⟩)
      | none => do
        let pinch ← isPinching l
        if pinch then pure (st', ⟨.PINCH, 95/100, lm l INDEX_TIP⟩)
        else do
          let fist ← isFist l
          if fist then pure (st', ⟨.FIST, 9/10, lm l WRIST⟩)
          else do
            let peace ← isPeaceSign l
            if peace then pure (st', ⟨.PEACE, 85/100, lm l INDEX_TIP⟩)
            else do
              let palm ← isOpenPalm l
              if palm then pure (st', ⟨.PALM, 9/10, lm l WRIST⟩)
              else do
                let point ← isPointing l
                if point then pure (st', ⟨.POINT, 85/100, lm l INDEX_TIP⟩)
                else pure (st', ⟨.NONE, 0, lm l WRIST⟩)

/-! ## VoxelRenderer geometry (src/core/VoxelRenderer.js, first class)

`raycastToGrid` delegates ray construction and plane/box intersection to
the external THREE.js camera and math library; what belongs to this core
is `getHitFaceNormal` and, per struck voxel, the candidate-recording step
(lines 326–339): normal from the hit point, neighbor position, bounds
check, `hitVoxel` tag.  The camera-distance ranking of candidates stays
with the external camera and is not embedded.
-/

/-- A hit point in world space, as handed over by `ray.intersectBox`. -/
structure Vec3 where
  x : ℚ
  y : ℚ
  z : ℚ
  deriving DecidableEq, Repr

/-- `getHitFaceNormal(intersection, voxel)`: compare the absolute offsets
of the hit point from the voxel center axis by axis (sequential `>=`,
X then Y then Z), and take the sign of the winning axis's offset. -/
def getHitFaceNormal (intersection : Vec3) (voxel : Coord) : Coord :=
  let dx := intersection.x - voxel.1
  let dy := intersection.y - voxel.2.1
  let dz := intersection.z - voxel.2.2
  let ax := |dx|
  let ay := |dy|
  let az := |dz|
  if ax ≥ ay ∧ ax ≥ az then (if dx > 0 then 1 else -1, 0, 0)
  else if ay ≥ ax ∧ ay ≥ az then (0, if dy > 0 then 1 else -1, 0)
  else (0, 0, if dz > 0 then 1 else -1)

/-- A recorded voxel-face candidate: the placement position plus the
struck voxel (`hitVoxel`). -/
structure FaceCandidate where
  x : Int
  y : Int
  z : Int
  hitVoxel : Coord
  deriving DecidableEq, Repr

/-- The per-voxel candidate-recording step of `raycastToGrid`: from the
box hit point, compute the face normal, offset the struck voxel by it,
and record the result only when it is a valid grid position. -/
def voxelFaceCandidate (intersection : Vec3) (voxel : Coord) :
    Option FaceCandidate :=
  let n := getHitFaceNormal intersection voxel
  let nx := voxel.1 + n.1
  let ny := voxel.2.1 + n.2.1
  let nz := voxel.2.2 + n.2.2
  if VoxelWorld.isValidPosition nx ny nz then
    some ⟨nx, ny, nz, voxel⟩
  else none

/-! ## Helper lemmas on the embedded JS `Map` -/

@[simp] theorem mapHas_nil (k : Coord) : mapHas [] k = false := rfl

theorem mapHas_cons (p : Coord × Int) (t : List (Coord × Int)) (k : Coord) :
    mapHas (p :: t) k = (decide (p.1 = k) || mapHas t k) := by
  simp [mapHas]

@[simp] theorem mapGet_nil (k : Coord) : mapGet [] k = none := rfl

theorem mapGet_cons (p : Coord × Int) (t : List (Coord × Int)) (k : Coord) :
    mapGet (p :: t) k = if p.1 = k then some p.2 else mapGet t k := by
  by_cases hp : p.1 = k
  · simp [mapGet, List.find?_cons_of_pos, hp]
  · simp [mapGet, List.find?_cons_of_neg, hp]

theorem mapSet_cons_ne (p : Coord × Int) (t : List (Coord × Int)) (k : Coord)
    (v : Int) (hp : ¬ p.1 = k) :
    mapSet (p :: t) k v = p :: mapSet t k v := by
  by_cases ht : mapHas t k = true <;>
    simp [mapSet, mapHas_cons, hp, ht]

theorem mapGet_mapSet_self (m : List (Coord × Int)) (k : Coord) (v : Int) :
    mapGet (mapSet m k v) k = some v := by
  induction m with
  | nil => simp [mapSet, mapGet_cons]
  | cons p t ih =>
    by_cases hp : p.1 = k
    · simp [mapSet, mapHas_cons, hp, mapGet_cons]
    · rw [mapSet_cons_ne p t k v hp, mapGet_cons]
      simp [hp, ih]

theorem mapGet_map_replace (t : List (Coord × Int)) (k k' : Coord) (v : Int)
    (hne : ¬ k' = k) :
    mapGet (t.map (fun q => if q.1 = k then (k, v) else q)) k' = mapGet t k' := by
  have hne' : ¬ k = k' := fun h => hne h.symm
  induction t with
  | nil => rfl
  | cons q t ih =>
    by_cases hq : q.1 = k
    · have hq' : ¬ q.1 = k' := by rw [hq]; exact hne'
      simp [mapGet_cons, hq, hne', hq', ih]
    · by_cases hq' : q.1 = k'
      · simp [mapGet_cons, hq, hq', hne]
      · simp [mapGet_cons, hq, hq', ih]

theorem mapGet_mapSet_ne (m : List (Coord × Int)) (k k' : Coord) (v : Int)
    (hne : ¬ k' = k) :
    mapGet (mapSet m k v) k' = mapGet m k' := by
  by_cases h : mapHas m k = true
  · simp only [mapSet, h, if_pos]
    exact mapGet_map_replace m k k' v hne
  · have hne' : ¬ k = k' := fun hh => hne hh.symm
    have happ : ∀ m' : List (Coord × Int), mapGet (m' ++ [(k, v)]) k' = mapGet m' k' := by
      intro m'
      induction m' with
      | nil => simp [mapGet_cons, hne']
      | cons p t ih =>
        rw [List.cons_append, mapGet_cons, mapGet_cons]
        by_cases hp : p.1 = k'
        · simp [hp]
        · simp [hp, ih]
    simp only [mapSet, h, if_neg, Bool.false_eq_true, if_false]
    exact happ m

theorem mapSet_keys_of_has (m : List (Coord × Int)) (k : Coord) (v : Int)
    (h : mapHas m k = true) :
    (mapSet m k v).map Prod.fst = m.map Prod.fst := by
  simp only [mapSet, h, if_pos, List.map_map]
  apply List.map_congr_left
  intro p _
  by_cases hp : p.1 = k <;> simp [hp]

theorem mapSet_keys_of_not_has (m : List (Coord × Int)) (k : Coord) (v : Int)
    (h : mapHas m k = false) :
    (mapSet m k v).map Prod.fst = m.map Prod.fst ++ [k] := by
  simp [mapSet, h]

theorem mem_mapSet (m : List (Coord × Int)) (k : Coord) (v : Int)
    (p : Coord × Int) (hp : p ∈ mapSet m k v) : p ∈ m ∨ p = (k, v) := by
  by_cases h : mapHas m k = true
  · simp only [mapSet, h, if_pos, List.mem_map] at hp
    obtain ⟨q, hq, hqe⟩ := hp
    by_cases hqk : q.1 = k
    · right
      rw [if_pos hqk] at hqe
      exact hqe.symm
    · left
      rw [if_neg hqk] at hqe
      exact hqe ▸ hq
  · simp only [mapSet, h, Bool.false_eq_true, if_false, List.mem_append,
      List.mem_singleton] at hp
    exact hp

theorem mapHas_eq_false_iff (m : List (Coord × Int)) (k : Coord) :
    mapHas m k = false ↔ ∀ p ∈ m, ¬ p.1 = k := by
  simp [mapHas, List.any_eq_true]

/-! ## The store invariant (C7) and round-trip machinery (C2, C6) -/

/-- The store invariant: keys are unique and every stored coordinate is a
valid grid position. -/
def VoxelWorld.WF (w : VoxelWorld) : Prop :=
  (w.voxels.map Prod.fst).Nodup ∧
  ∀ p ∈ w.voxels, VoxelWorld.isValidPosition p.1.1 p.1.2.1 p.1.2.2 = true

theorem wf_init : VoxelWorld.WF VoxelWorld.init := by
  constructor <;> simp [VoxelWorld.init]

theorem wf_addVoxel (w : VoxelWorld) (x y z c : Int) (hw : w.WF) :
    ((w.addVoxel x y z c).2.1).WF := by
  unfold VoxelWorld.addVoxel
  by_cases hv : VoxelWorld.isValidPosition x y z = true
  · simp only [hv, not_true, if_neg, ite_false, not_false_iff, if_pos]
    constructor
    · by_cases hh : mapHas w.voxels (x, y, z) = true
      · rw [mapSet_keys_of_has _ _ _ hh]
        exact hw.1
      · rw [mapSet_keys_of_not_has _ _ _ (by simpa using hh)]
        rw [List.nodup_append]
        refine ⟨hw.1, List.nodup_singleton _, ?_⟩
        intro a ha
        simp only [List.mem_singleton]
        intro hak
        subst hak
        obtain ⟨p, hp, hpk⟩ := List.mem_map.mp ha
        exact absurd ((mapHas_eq_false_iff _ _).mp (by simpa using hh) p hp) (by simp [hpk])
    · intro p hp
      rcases mem_mapSet _ _ _ _ hp with h | h
      · exact hw.2 p h
      · subst h
        simpa using hv
  · simp only [hv]
    simp only [Bool.not_eq_true] at hv
    simp [hv]
    exact hw

theorem wf_removeVoxel (w : VoxelWorld) (x y z : Int) (hw : w.WF) :
    ((w.removeVoxel x y z).2.1).WF := by
  unfold VoxelWorld.removeVoxel
  by_cases hh : mapHas w.voxels (x, y, z) = true
  · simp only [hh, if_pos]
    constructor
    · exact hw.1.sublist ((List.filter_sublist _).map Prod.fst)
    · intro p hp
      exact hw.2 p (List.mem_of_mem_filter hp)
  · simp only [Bool.not_eq_true] at hh
    simp [hh]
    exact hw

theorem wf_clear (w : VoxelWorld) : ((w.clear).1).WF := by
  constructor <;> simp [VoxelWorld.clear]

theorem wf_fromJSONLoop (data : List VoxelRec) (acc : VoxelWorld)
    (notes : List VoxelWorld) (h : acc.WF) :
    ((VoxelWorld.fromJSONLoop acc notes data).1).WF := by
  induction data generalizing acc notes with
  | nil => exact h
  | cons v rest ih =>
    rw [VoxelWorld.fromJSONLoop]
    exact ih _ _ (wf_addVoxel acc v.x v.y v.z v.colorIndex h)

theorem wf_fromJSON (w : VoxelWorld) (data : List VoxelRec) :
    ((w.fromJSON data).1).WF :=
  wf_fromJSONLoop data ⟨[]⟩ [] wf_init

theorem wf_setState (w : VoxelWorld) (s : List VoxelRec) :
    ((w.setState s).1).WF :=
  wf_fromJSON w s

/-- **C7** — Every VoxelWorld operation (`addVoxel`, `removeVoxel`,
`clear`, `setState`/`fromJSON`) preserves the store invariant: each
coordinate triple maps to at most one voxel entry, and no coordinate with
a component outside `[0, 16)` ever appears in the store. -/
theorem c7_store_invariant :
    (∀ (w : VoxelWorld) (x y z c : Int), w.WF → ((w.addVoxel x y z c).2.1).WF)
    ∧ (∀ (w : VoxelWorld) (x y z : Int), w.WF → ((w.removeVoxel x y z).2.1).WF)
    ∧ (∀ w : VoxelWorld, ((w.clear).1).WF)
    ∧ (∀ (w : VoxelWorld) (data : List VoxelRec), ((w.fromJSON data).1).WF)
    ∧ (∀ (w : VoxelWorld) (s : List VoxelRec), ((w.setState s).1).WF) :=
  ⟨wf_addVoxel, wf_removeVoxel, wf_clear, wf_fromJSON, wf_setState⟩

/-- Witness for C7 at a concrete world. -/
theorem c7_store_invariant_witness :
    ((VoxelWorld.init.addVoxel 1 2 3 4).2.1).WF :=
  c7_store_invariant.1 VoxelWorld.init 1 2 3 4 wf_init

/-- **C5** — For every coordinate triple with a component outside
`[0, 16)`, `addVoxel` returns a not-added result, leaves the world
unchanged (hence the voxel count unchanged), and fires no change
notification; for every in-bounds triple it inserts or overwrites the
entry at that key, leaves all other keys untouched, and reports whether
the key was previously absent. -/
theorem c5_addVoxel_bounds :
    (∀ (w : VoxelWorld) (x y z c : Int),
        VoxelWorld.isValidPosition x y z = false →
        w.addVoxel x y z c = (.notAdded, w, []))
    ∧ (∀ (w : VoxelWorld) (x y z c : Int),
        VoxelWorld.isValidPosition x y z = true →
        (w.addVoxel x y z c).1 = .added (! w.hasVoxel x y z)
        ∧ ((w.addVoxel x y z c).2.1).getVoxel x y z = some c
        ∧ ∀ k : Coord, ¬ k = (x, y, z) →
            mapGet ((w.addVoxel x y z c).2.1).voxels k = mapGet w.voxels k) := by
  constructor
  · intro w x y z c h
    simp [VoxelWorld.addVoxel, h]
  · intro w x y z c h
    refine ⟨?_, ?_, ?_⟩
    · simp [VoxelWorld.addVoxel, VoxelWorld.hasVoxel, h]
    · simp only [VoxelWorld.addVoxel, h, not_true, ite_false, VoxelWorld.getVoxel,
        not_false_iff, if_pos]
      exact mapGet_mapSet_self w.voxels (x, y, z) c
    · intro k hk
      simp only [VoxelWorld.addVoxel, h, not_true, ite_false, not_false_iff, if_pos]
      exact mapGet_mapSet_ne w.voxels (x, y, z) k c hk

/-- Witness for C5: out of bounds at `(20, 0, 0)`, in bounds at
`(1, 2, 3)`. -/
theorem c5_addVoxel_bounds_witness :
    VoxelWorld.init.addVoxel 20 0 0 0 = (.notAdded, VoxelWorld.init, [])
    ∧ ((VoxelWorld.init.addVoxel 1 2 3 0).2.1).getVoxel 1 2 3 = some 0 :=
  ⟨c5_addVoxel_bounds.1 VoxelWorld.init 20 0 0 0 (by decide),
   (c5_addVoxel_bounds.2 VoxelWorld.init 1 2 3 0 (by decide)).2.1⟩

theorem mapHas_append (m₁ m₂ : List (Coord × Int)) (k : Coord) :
    mapHas (m₁ ++ m₂) k = (mapHas m₁ k || mapHas m₂ k) := by
  simp [mapHas, List.any_append]

/-- The store entry a `getAllVoxels()` record turns back into. -/
def entryOf (v : VoxelRec) : Coord × Int := ((v.x, v.y, v.z), v.colorIndex)

/-- The worlds a listener observes while `fromJSON` repopulates on top of
`L`: one per added record, each holding one record more. -/
def prefWorlds : List (Coord × Int) → List VoxelRec → List VoxelWorld
  | _, [] => []
  | L, v :: rest => ⟨L ++ [entryOf v]⟩ :: prefWorlds (L ++ [entryOf v]) rest

theorem prefWorlds_length (L : List (Coord × Int)) (data : List VoxelRec) :
    (prefWorlds L data).length = data.length := by
  induction data generalizing L with
  | nil => rfl
  | cons v rest ih => simp [prefWorlds, ih]

theorem prefWorlds_get? (L : List (Coord × Int)) (data : List VoxelRec)
    (i : Nat) (h : i < data.length) :
    (prefWorlds L data).get? i = some ⟨L ++ (data.take (i + 1)).map entryOf⟩ := by
  induction data generalizing L i with
  | nil => simp at h
  | cons v rest ih =>
    cases i with
    | zero => simp [prefWorlds]
    | succ j =>
      rw [prefWorlds]
      simp only [List.get?_cons_succ]
      rw [ih (L ++ [entryOf v]) j (by simpa using h)]
      simp [List.append_assoc]

/-- Exact shape of the `fromJSON` repopulation loop over fresh, valid,
duplicate-free records. -/
theorem fromJSON_loop_exact (data : List VoxelRec) (L : List (Coord × Int))
    (ns : List VoxelWorld)
    (hv : ∀ v ∈ data, VoxelWorld.isValidPosition v.x v.y v.z = true)
    (hnd : (data.map (fun v => ((v.x, v.y, v.z) : Coord))).Nodup)
    (hfresh : ∀ v ∈ data, mapHas L ((v.x, v.y, v.z) : Coord) = false) :
    VoxelWorld.fromJSONLoop ⟨L⟩ ns data
      = (⟨L ++ data.map entryOf⟩, ns ++ prefWorlds L data) := by
  induction data generalizing L ns with
  | nil => simp [VoxelWorld.fromJSONLoop, prefWorlds]
  | cons v rest ih =>
    have hv0 : VoxelWorld.isValidPosition v.x v.y v.z = true :=
      hv v (List.mem_cons_self v rest)
    have hf0 : mapHas L ((v.x, v.y, v.z) : Coord) = false :=
      hfresh v (List.mem_cons_self v rest)
    have hstep : (VoxelWorld.addVoxel ⟨L⟩ v.x v.y v.z v.colorIndex)
        = (.added true, ⟨L ++ [entryOf v]⟩, [⟨L ++ [entryOf v]⟩]) := by
      simp [VoxelWorld.addVoxel, hv0, hf0, mapSet, entryOf]
    have hfresh' : ∀ u ∈ rest,
        mapHas (L ++ [entryOf v]) ((u.x, u.y, u.z) : Coord) = false := by
      intro u hu
      rw [mapHas_append]
      have h1 : mapHas L ((u.x, u.y, u.z) : Coord) = false :=
        hfresh u (List.mem_cons_of_mem v hu)
      have h2 : ¬ ((v.x, v.y, v.z) : Coord) = (u.x, u.y, u.z) := by
        intro hk
        exact (List.nodup_cons.mp hnd).1 (List.mem_map.mpr ⟨u, hu, hk.symm⟩)
      simp [h1, mapHas_cons, entryOf, h2]
    rw [VoxelWorld.fromJSONLoop]
    simp only [hstep]
    rw [ih (L ++ [entryOf v]) (ns ++ [(⟨L ++ [entryOf v]⟩ : VoxelWorld)])
        (fun u hu => hv u (List.mem_cons_of_mem v hu))
        ((List.nodup_cons.mp hnd).2) hfresh']
    simp [prefWorlds, List.append_assoc]

theorem entryOf_getAllVoxels (w : VoxelWorld) :
    (w.getAllVoxels).map entryOf = w.voxels := by
  have h : (fun (p : Coord × Int) => entryOf ⟨p.1.1, p.1.2.1, p.1.2.2, p.2⟩)
      = fun p => p := by
    funext p
    rfl
  simp [VoxelWorld.getAllVoxels, List.map_map, Function.comp_def, entryOf]

theorem keys_getAllVoxels (w : VoxelWorld) :
    (w.getAllVoxels).map (fun v => ((v.x, v.y, v.z) : Coord))
      = w.voxels.map Prod.fst := by
  simp only [VoxelWorld.getAllVoxels, List.map_map]
  apply List.map_congr_left
  intro p _
  rfl

/-- The worlds reachable from the empty world by `addVoxel`/`removeVoxel`. -/
inductive Reachable : VoxelWorld → Prop where
  | base : Reachable VoxelWorld.init
  | add (w : VoxelWorld) (x y z c : Int) :
      Reachable w → Reachable ((w.addVoxel x y z c).2.1)
  | remove (w : VoxelWorld) (x y z : Int) :
      Reachable w → Reachable ((w.removeVoxel x y z).2.1)

theorem reachable_wf (w : VoxelWorld) (h : Reachable w) : w.WF := by
  induction h with
  | base => exact wf_init
  | add w x y z c _ ih => exact wf_addVoxel w x y z c ih
  | remove w x y z _ ih => exact wf_removeVoxel w x y z ih

theorem setState_getState_of_wf (w : VoxelWorld) (hw : w.WF) :
    (w.setState w.getState).1 = w := by
  unfold VoxelWorld.setState VoxelWorld.fromJSON VoxelWorld.getState VoxelWorld.toJSON
  rw [fromJSON_loop_exact (w.getAllVoxels) [] []
    (fun v hv => by
      obtain ⟨p, hp, hpe⟩ := List.mem_map.mp hv
      rw [← hpe]
      exact hw.2 p hp)
    (by rw [keys_getAllVoxels]; exact hw.1)
    (fun v _ => rfl)]
  simp [entryOf_getAllVoxels]

/-- **C6** — For every VoxelWorld state reachable from the empty world by
any sequence of `addVoxel` and `removeVoxel` operations, calling
`setState(getState())` leaves the world with an enumerable voxel set
(`getAllVoxels`, as `{x, y, z, colorIndex}` records) identical to the set
before the call. -/
theorem c6_roundTrip : ∀ w : VoxelWorld, Reachable w →
    ((w.setState w.getState).1).getAllVoxels = w.getAllVoxels := by
  intro w h
  rw [setState_getState_of_wf w (reachable_wf w h)]

/-- Witness for C6 at a concrete one-voxel reachable world. -/
theorem c6_roundTrip_witness :
    ((((VoxelWorld.init.addVoxel 1 2 3 4).2.1).setState
        ((VoxelWorld.init.addVoxel 1 2 3 4).2.1).getState).1).getAllVoxels
      = ((VoxelWorld.init.addVoxel 1 2 3 4).2.1).getAllVoxels :=
  c6_roundTrip _ (Reachable.add _ 1 2 3 4 Reachable.base)

/-- **C2 counterexample** — `setState` on a world holding `(0,0,0)` with a
two-record blob notifies twice (not exactly once), and at the first
notification the enumerable content (`[(1,1,1)]`) equals neither the
complete old state nor the complete new state. -/
theorem c2_counterexample :
    (VoxelWorld.setState ⟨[((0, 0, 0), 0)]⟩
        [⟨1, 1, 1, 0⟩, ⟨2, 2, 2, 0⟩]).2.length = 2
    ∧ (VoxelWorld.setState ⟨[((0, 0, 0), 0)]⟩
        [⟨1, 1, 1, 0⟩, ⟨2, 2, 2, 0⟩]).2.get? 0 = some ⟨[((1, 1, 1), 0)]⟩
    ∧ ¬ ((⟨[((1, 1, 1), 0)]⟩ : VoxelWorld).getAllVoxels
        = (⟨[((0, 0, 0), 0)]⟩ : VoxelWorld).getAllVoxels)
    ∧ ¬ ((⟨[((1, 1, 1), 0)]⟩ : VoxelWorld).getAllVoxels
        = ((VoxelWorld.setState ⟨[((0, 0, 0), 0)]⟩
            [⟨1, 1, 1, 0⟩, ⟨2, 2, 2, 0⟩]).1).getAllVoxels) := by
  decide

/-- **C2 (amended)** — During one `setState(blob)` call with a well-formed
blob of `k` in-bounds, duplicate-free records, observers are notified `k`
times — once per repopulated voxel, not exactly once — and the `i`-th
notification exposes exactly the first `i + 1` records of the blob, so a
partially-repopulated store is observable whenever `k ≥ 2`; after the
call the store holds exactly the blob's records. -/
theorem c2_setState_notifications : ∀ (w : VoxelWorld) (data : List VoxelRec),
    (∀ v ∈ data, VoxelWorld.isValidPosition v.x v.y v.z = true) →
    (data.map (fun v => ((v.x, v.y, v.z) : Coord))).Nodup →
    ((w.setState data).2.length = data.length
     ∧ (∀ i : Nat, i < data.length →
         (w.setState data).2.get? i = some ⟨(data.take (i + 1)).map entryOf⟩)
     ∧ (w.setState data).1 = ⟨data.map entryOf⟩) := by
  intro w data hv hnd
  have h := fromJSON_loop_exact data [] [] hv hnd (fun v _ => rfl)
  unfold VoxelWorld.setState VoxelWorld.fromJSON
  rw [h]
  refine ⟨by simp [prefWorlds_length], ?_, by simp⟩
  intro i hi
  simpa using prefWorlds_get? [] data i hi

/-- Witness for C2 (amended) at the two-record blob. -/
theorem c2_setState_notifications_witness :
    ((VoxelWorld.init.setState [⟨1, 1, 1, 0⟩, ⟨2, 2, 2, 0⟩]).2.length = 2
     ∧ (VoxelWorld.init.setState [⟨1, 1, 1, 0⟩, ⟨2, 2, 2, 0⟩]).1
        = ⟨[((1, 1, 1), 0), ((2, 2, 2), 0)]⟩) := by
  have h := c2_setState_notifications VoxelWorld.init [⟨1, 1, 1, 0⟩, ⟨2, 2, 2, 0⟩]
    (by decide) (by decide)
  exact ⟨h.1, h.2.2⟩

/-! ## HistoryManager iteration lemmas (C3) -/

/-- `N` consecutive `saveState` calls on a fresh default-capacity manager,
saving `f 0, f 1, …` in order. -/
def iterSave {α : Type} (f : Nat → α) : Nat → HistoryManager α
  | 0 => HistoryManager.init α 50
  | n + 1 => (iterSave f n).saveState (f n)

/-- `M` consecutive `undo()` calls (results discarded). -/
def undoN {α : Type} (h : HistoryManager α) : Nat → HistoryManager α
  | 0 => h
  | n + 1 => ((undoN h n).undo).1

/-- `M` consecutive `redo()` calls (results discarded). -/
def redoN {α : Type} (h : HistoryManager α) : Nat → HistoryManager α
  | 0 => h
  | n + 1 => ((redoN h n).redo).1

theorem undo_fst_history {α : Type} (h : HistoryManager α) :
    (h.undo).1.history = h.history := by
  unfold HistoryManager.undo
  split <;> rfl

theorem undo_fst_index {α : Type} (h : HistoryManager α) :
    (h.undo).1.currentIndex =
      if h.currentIndex > 0 then h.currentIndex - 1 else h.currentIndex := by
  unfold HistoryManager.undo
  split <;> simp_all

theorem undoN_history {α : Type} (h : HistoryManager α) (n : Nat) :
    (undoN h n).history = h.history := by
  induction n with
  | zero => rfl
  | succ n ih => rw [undoN, undo_fst_history, ih]

theorem undoN_index {α : Type} (h : HistoryManager α) (n : Nat)
    (h0 : 0 ≤ h.currentIndex) :
    (undoN h n).currentIndex = max 0 (h.currentIndex - n) := by
  induction n with
  | zero => simp [undoN]; omega
  | succ n ih =>
    rw [undoN, undo_fst_index, ih]
    split_ifs <;> omega

theorem redo_fst_history {α : Type} (h : HistoryManager α) :
    (h.redo).1.history = h.history := by
  unfold HistoryManager.redo
  split <;> rfl

theorem redo_fst_index {α : Type} (h : HistoryManager α) :
    (h.redo).1.currentIndex =
      if h.currentIndex < (h.history.length : Int) - 1 then h.currentIndex + 1
      else h.currentIndex := by
  unfold HistoryManager.redo
  split <;> simp_all

theorem redoN_history {α : Type} (h : HistoryManager α) (n : Nat) :
    (redoN h n).history = h.history := by
  induction n with
  | zero => rfl
  | succ n ih => rw [redoN, redo_fst_history, ih]

theorem redoN_index {α : Type} (h : HistoryManager α) (n : Nat)
    (hle : h.currentIndex ≤ (h.history.length : Int) - 1) :
    (redoN h n).currentIndex =
      min ((h.history.length : Int) - 1) (h.currentIndex + n) := by
  induction n with
  | zero => simp [redoN]; omega
  | succ n ih =>
    rw [redoN, redo_fst_index, ih, redoN_history]
    split_ifs <;> omega

theorem saveState_spec {α : Type} (h : HistoryManager α) (s : α)
    (hP : h.currentIndex = (h.history.length : Int) - 1
          ∧ h.history.length ≤ h.maxHistory)
    (hcap1 : 1 ≤ h.maxHistory) :
    (h.saveState s).currentIndex = (((h.saveState s).history.length : Int)) - 1
    ∧ (h.saveState s).history.length ≤ h.maxHistory
    ∧ 1 ≤ (h.saveState s).history.length
    ∧ (1 ≤ h.history.length ∧ 2 ≤ h.maxHistory →
        2 ≤ (h.saveState s).history.length)
    ∧ (h.saveState s).maxHistory = h.maxHistory := by
  obtain ⟨hidx, hcap⟩ := hP
  unfold HistoryManager.saveState
  have hnott : ¬ (h.currentIndex < (h.history.length : Int) - 1) := by omega
  rw [if_neg hnott]
  dsimp only
  split_ifs with hover
  · dsimp only
    simp only [List.length_drop, List.length_append, List.length_singleton] at hover ⊢
    refine ⟨?_, ?_, ?_, fun hcond => ?_, ?_⟩ <;> first | trivial | omega
  · dsimp only
    simp only [List.length_append, List.length_singleton] at hover ⊢
    refine ⟨?_, ?_, ?_, fun hcond => ?_, ?_⟩ <;> first | trivial | omega

theorem iterSave_spec {α : Type} (f : Nat → α) (n : Nat) (hn : 1 ≤ n) :
    (iterSave f n).currentIndex = (((iterSave f n).history.length : Int)) - 1
    ∧ 1 ≤ (iterSave f n).history.length
    ∧ (iterSave f n).history.length ≤ 50
    ∧ (iterSave f n).maxHistory = 50
    ∧ (2 ≤ n → 2 ≤ (iterSave f n).history.length) := by
  induction n with
  | zero => omega
  | succ n ih =>
    cases Nat.eq_zero_or_pos n with
    | inl h0 =>
      subst h0
      refine ⟨?_, ?_, ?_, ?_, ?_⟩ <;>
        simp [iterSave, HistoryManager.init, HistoryManager.saveState]
    | inr hpos =>
      obtain ⟨hidx, hlen1, hlen50, hmax, _⟩ := ih hpos
      obtain ⟨ha, hb, hc, hd, he⟩ :=
        saveState_spec (iterSave f n) (f n) ⟨hidx, by omega⟩ (by omega)
      rw [iterSave]
      exact ⟨ha, by omega, by omega, by omega, fun _ => by omega⟩

/-- **C3 counterexample** — With `N = 1` and `M = 1` (allowed by the
claim's `N ≥ 1`, `1 ≤ M ≤ N`), the single `undo` is a no-op
(`currentIndex` is already 0), so `canRedo()` is `false`, not `true`. -/
theorem c3_counterexample :
    HistoryManager.canRedo (undoN (iterSave (fun _ => (0 : Nat)) 1) 1) = false := by
  decide

/-- **C3 (amended)** — For a HistoryManager starting empty (default cap
50): for every `N ≥ 2` and `1 ≤ M ≤ N`, after `N` `saveState` calls
followed by `M` `undo` calls, `canRedo()` returns `true` and `M` `redo()`
calls return the history cursor (and the stored sequence) to the
pre-undo entry; for `N = 1` the single permitted undo is a no-op that
returns `null` and leaves `canRedo()` false; and after any `saveState`
whatsoever (in particular one following an undo), `canRedo()` returns
`false`. -/
theorem c3_history_undo_redo :
    (∀ (α : Type) (f : Nat → α) (N M : Nat), 2 ≤ N → 1 ≤ M → M ≤ N →
        HistoryManager.canRedo (undoN (iterSave f N) M) = true
        ∧ (redoN (undoN (iterSave f N) M) M).currentIndex
            = (iterSave f N).currentIndex
        ∧ (redoN (undoN (iterSave f N) M) M).history = (iterSave f N).history)
    ∧ (∀ (α : Type) (f : Nat → α),
        HistoryManager.canRedo (undoN (iterSave f 1) 1) = false
        ∧ ((iterSave f 1).undo).2 = none)
    ∧ (∀ (α : Type) (h : HistoryManager α) (s : α),
        (h.saveState s).canRedo = false) := by
  refine ⟨?_, ?_, ?_⟩
  · intro α f N M h2 h1 hMN
    obtain ⟨hidx, hlen1, hlen50, hmax, hlen2'⟩ := iterSave_spec f N (by omega)
    have hlen2 : 2 ≤ (iterSave f N).history.length := hlen2' h2
    have h0 : 0 ≤ (iterSave f N).currentIndex := by omega
    have hu_hist := undoN_history (iterSave f N) M
    have hu_idx := undoN_index (iterSave f N) M h0
    have hcr : HistoryManager.canRedo (undoN (iterSave f N) M) = true := by
      unfold HistoryManager.canRedo
      rw [hu_idx, hu_hist]
      simp only [decide_eq_true_eq]
      omega
    have hr_idx := redoN_index (undoN (iterSave f N) M) M
      (by rw [hu_idx, hu_hist]; omega)
    rw [hu_idx, hu_hist] at hr_idx
    refine ⟨hcr, by rw [hr_idx]; omega, by rw [redoN_history, hu_hist]⟩
  · intro α f
    have h1 : iterSave f 1 = ⟨[f 0], 0, 50⟩ := by
      simp [iterSave, HistoryManager.init, HistoryManager.saveState]
    constructor
    · show HistoryManager.canRedo ((iterSave f 1).undo).1 = false
      rw [h1]
      rfl
    · rw [h1]
      rfl
  · intro α h s
    unfold HistoryManager.saveState HistoryManager.canRedo
    dsimp only
    split_ifs <;>
      (dsimp only
       simp only [List.length_drop, List.length_append, List.length_singleton,
         decide_eq_false_iff_not, not_lt]
       omega)

/-- Witness for C3 (amended) at `N = 2`, `M = 1` over `Nat` states. -/
theorem c3_history_undo_redo_witness :
    (HistoryManager.canRedo (undoN (iterSave (fun _ => (0 : Nat)) 2) 1) = true
     ∧ (redoN (undoN (iterSave (fun _ => (0 : Nat)) 2) 1) 1).currentIndex
         = (iterSave (fun _ => (0 : Nat)) 2).currentIndex
     ∧ (redoN (undoN (iterSave (fun _ => (0 : Nat)) 2) 1) 1).history
         = (iterSave (fun _ => (0 : Nat)) 2).history)
    ∧ ((HistoryManager.init Nat 50).saveState 7).canRedo = false :=
  ⟨c3_history_undo_redo.1 Nat (fun _ => 0) 2 1 (by omega) (by omega) (by omega),
   c3_history_undo_redo.2.2 Nat (HistoryManager.init Nat 50) 7⟩

/-! ## The undo scenario (C1)

The spec's frozen scenario (§8): empty world, PINCH placing `(3,0,5)` at
`t = 1000` ms, FIST deleting that voxel at `t = 2000` ms, SWIPE_LEFT undo
at `t = 3000` ms, SWIPE_RIGHT redo at `t = 4000` ms — every cooldown
elapsed at each step.
-/

def scenarioPinch : GestureActions :=
  GestureActions.init.handlePinch (some ⟨3, 0, 5, none⟩) 1000

def scenarioFist : GestureActions :=
  scenarioPinch.handleFist (some ⟨3, 0, 5, some (3, 0, 5)⟩) 2000

def scenarioUndo : GestureActions :=
  scenarioFist.handleSwipeLeft 3000

/-- **C1 (code bug)** — `saveState` stores the PRE-action snapshot, but
`undo()` decrements the cursor before reading, so a SWIPE_LEFT undo
restores the snapshot taken before the PREVIOUS mutating action, not the
state immediately before the last one.  Concretely: the PINCH leaves the
world holding `(3,0,5)`; the FIST deletes it; the SWIPE_LEFT undo leaves
the world EMPTY (restoring the pre-PINCH snapshot) instead of restoring
the deleted voxel; the SWIPE_RIGHT redo then makes the voxel reappear
instead of re-applying the removal; and after a first-ever mutating
action, undo returns `null` and restores nothing at all. -/
theorem c1_undo_divergence :
    scenarioPinch.world.getAllVoxels = [⟨3, 0, 5, 0⟩]
    ∧ scenarioFist.world.getAllVoxels = []
    ∧ scenarioUndo.world.getAllVoxels = []
    ∧ ¬ scenarioUndo.world.getAllVoxels = scenarioPinch.world.getAllVoxels
    ∧ (scenarioUndo.handleSwipeRight 4000).world.getAllVoxels = [⟨3, 0, 5, 0⟩]
    ∧ (scenarioPinch.handleSwipeLeft 2000).world.getAllVoxels = [⟨3, 0, 5, 0⟩]
    ∧ (scenarioPinch.historyManager.undo).2 = none := by
  decide

/-! ## Face-normal selection and candidate recording (C9) -/

/-- **C9** — For every ray–box hit point on an existing voxel, the struck
face is the axis whose absolute offset of the hit point from the voxel
center is maximal, with exact ties resolved by the sequential `>=`
comparisons favoring X, then Y, then Z (each branch characterized
exactly, and the chosen axis always carries a maximal absolute offset);
the placement candidate is the struck voxel's coordinate plus the unit
outward normal on that axis (sign of the offset), recorded exactly when
in-bounds and tagged with the struck voxel as `hitVoxel`. -/
theorem c9_face_normal_candidate :
    (∀ (p : Vec3) (v : Coord),
      (getHitFaceNormal p v = ((if p.x - v.1 > 0 then 1 else -1), 0, 0)
        ↔ (|p.x - v.1| ≥ |p.y - v.2.1| ∧ |p.x - v.1| ≥ |p.z - v.2.2|))
      ∧ (getHitFaceNormal p v = (0, (if p.y - v.2.1 > 0 then 1 else -1), 0)
        ↔ (¬ (|p.x - v.1| ≥ |p.y - v.2.1| ∧ |p.x - v.1| ≥ |p.z - v.2.2|)
           ∧ |p.y - v.2.1| ≥ |p.x - v.1| ∧ |p.y - v.2.1| ≥ |p.z - v.2.2|))
      ∧ (getHitFaceNormal p v = (0, 0, (if p.z - v.2.2 > 0 then 1 else -1))
        ↔ (¬ (|p.x - v.1| ≥ |p.y - v.2.1| ∧ |p.x - v.1| ≥ |p.z - v.2.2|)
           ∧ ¬ (|p.y - v.2.1| ≥ |p.x - v.1| ∧ |p.y - v.2.1| ≥ |p.z - v.2.2|)))
      ∧ ((getHitFaceNormal p v).1 ≠ 0 →
          |p.x - v.1| ≥ |p.y - v.2.1| ∧ |p.x - v.1| ≥ |p.z - v.2.2|)
      ∧ ((getHitFaceNormal p v).2.1 ≠ 0 →
          |p.y - v.2.1| ≥ |p.x - v.1| ∧ |p.y - v.2.1| ≥ |p.z - v.2.2|)
      ∧ ((getHitFaceNormal p v).2.2 ≠ 0 →
          |p.z - v.2.2| ≥ |p.x - v.1| ∧ |p.z - v.2.2| ≥ |p.y - v.2.1|))
    ∧ (∀ (p : Vec3) (v : Coord) (c : FaceCandidate),
        voxelFaceCandidate p v = some c
        ↔ (VoxelWorld.isValidPosition (v.1 + (getHitFaceNormal p v).1)
              (v.2.1 + (getHitFaceNormal p v).2.1)
              (v.2.2 + (getHitFaceNormal p v).2.2) = true
           ∧ c = ⟨v.1 + (getHitFaceNormal p v).1,
                  v.2.1 + (getHitFaceNormal p v).2.1,
                  v.2.2 + (getHitFaceNormal p v).2.2, v⟩)) := by
  constructor
  · intro p v
    have hsx : (if p.x - v.1 > 0 then (1 : Int) else -1) ≠ 0 := by
      split <;> omega
    have hsy : (if p.y - v.2.1 > 0 then (1 : Int) else -1) ≠ 0 := by
      split <;> omega
    have hsz : (if p.z - v.2.2 > 0 then (1 : Int) else -1) ≠ 0 := by
      split <;> omega
    by_cases h1 : |p.x - (v.1 : ℚ)| ≥ |p.y - (v.2.1 : ℚ)| ∧
        |p.x - (v.1 : ℚ)| ≥ |p.z - (v.2.2 : ℚ)|
    · have hn : getHitFaceNormal p v = ((if p.x - v.1 > 0 then 1 else -1), 0, 0) := by
        simp only [getHitFaceNormal]
        rw [if_pos h1]
      rw [hn]
      refine ⟨iff_of_true rfl h1, iff_of_false ?_ (fun hr => hr.1 h1),
        iff_of_false ?_ (fun hr => hr.1 h1), fun _ => h1, ?_, ?_⟩
      · intro he
        rw [Prod.mk.injEq, Prod.mk.injEq] at he
        exact hsx he.1
      · intro he
        rw [Prod.mk.injEq, Prod.mk.injEq] at he
        exact hsx he.1
      · intro hne
        exact absurd rfl hne
      · intro hne
        exact absurd rfl hne
    · by_cases h2 : |p.y - (v.2.1 : ℚ)| ≥ |p.x - (v.1 : ℚ)| ∧
          |p.y - (v.2.1 : ℚ)| ≥ |p.z - (v.2.2 : ℚ)|
      · have hn : getHitFaceNormal p v
            = (0, (if p.y - v.2.1 > 0 then 1 else -1), 0) := by
          simp only [getHitFaceNormal]
          rw [if_neg h1, if_pos h2]
        rw [hn]
        refine ⟨iff_of_false ?_ (fun hr => h1 hr), iff_of_true rfl ⟨h1, h2⟩,
          iff_of_false ?_ (fun hr => hr.2 h2), ?_, fun _ => h2, ?_⟩
        · intro he
          rw [Prod.mk.injEq, Prod.mk.injEq] at he
          exact hsx he.1.symm
        · intro he
          rw [Prod.mk.injEq, Prod.mk.injEq] at he
          exact hsy he.2.1
        · intro hne
          exact absurd rfl hne
        · intro hne
          exact absurd rfl hne
      · have hn : getHitFaceNormal p v
            = (0, 0, (if p.z - v.2.2 > 0 then 1 else -1)) := by
          simp only [getHitFaceNormal]
          rw [if_neg h1, if_neg h2]
        have hz : |p.z - (v.2.2 : ℚ)| ≥ |p.x - (v.1 : ℚ)| ∧
            |p.z - (v.2.2 : ℚ)| ≥ |p.y - (v.2.1 : ℚ)| := by
          rcases not_and_or.mp h1 with h | h <;> rcases not_and_or.mp h2 with h' | h' <;>
            push_neg at h h' <;> constructor <;> linarith
        rw [hn]
        refine ⟨iff_of_false ?_ (fun hr => h1 hr), iff_of_false ?_ (fun hr => h2 hr.2),
          iff_of_true rfl ⟨h1, h2⟩, ?_, ?_, fun _ => hz⟩
        · intro he
          rw [Prod.mk.injEq, Prod.mk.injEq] at he
          exact hsx he.1.symm
        · intro he
          rw [Prod.mk.injEq, Prod.mk.injEq] at he
          exact hsy he.2.1.symm
        · intro hne
          exact absurd rfl hne
        · intro hne
          exact absurd rfl hne
  · intro p v c
    simp only [voxelFaceCandidate]
    split_ifs with hval
    · constructor
      · intro he
        exact ⟨hval, (Option.some.injEq _ _ ▸ he).symm⟩
      · intro ⟨_, hc⟩
        rw [hc]
    · constructor
      · intro he
        exact absurd he (by simp)
      · intro ⟨hv', _⟩
        exact absurd hv' hval

/-- Witness for C9 at the hit point `(1/2, 1/10, 1/10)` on voxel
`(0,0,0)`: the X axis wins and the candidate `(1,0,0)` is recorded. -/
theorem c9_face_normal_candidate_witness :
    getHitFaceNormal ⟨1/2, 1/10, 1/10⟩ (0, 0, 0) = (1, 0, 0)
    ∧ voxelFaceCandidate ⟨1/2, 1/10, 1/10⟩ (0, 0, 0)
        = some ⟨1, 0, 0, (0, 0, 0)⟩ := by
  have h1 := (c9_face_normal_candidate.1 ⟨1/2, 1/10, 1/10⟩ (0, 0, 0)).1.mpr
    (by norm_num [abs_of_nonneg])
  have hn : getHitFaceNormal ⟨1/2, 1/10, 1/10⟩ (0, 0, 0) = (1, 0, 0) := by
    rw [h1]
    norm_num
  refine ⟨hn, ?_⟩
  have h2 := (c9_face_normal_candidate.2 ⟨1/2, 1/10, 1/10⟩ (0, 0, 0)
    ⟨1, 0, 0, (0, 0, 0)⟩).mpr
  rw [hn] at h2
  exact h2 ⟨by decide, by norm_num⟩

/-! ## Swipe window (C8) -/

/-- **C8** — `detectSwipe` emits a swipe only when, with at most `0.5` s
elapsed since the latched start, the straight-line displacement exceeds
`SWIPE_MIN_DISTANCE = 0.2` and the speed exceeds
`SWIPE_VELOCITY = 0.15` (all compared on squares); and whenever the
elapsed time exceeds `0.5` s at a call, no swipe is emitted and the
window re-latches from the current wrist position and time. -/
theorem c8_swipe_window :
    (∀ (st : RecState) (l : List Landmark) (now : Int) (st' : RecState)
        (g : Gesture),
      detectSwipe st l now = some (st', some g) →
      ∃ start wrist, st.swipeStartPosition = some start ∧ lm l WRIST = some wrist ∧
        ((((now - st.swipeStartTime.getD 0 : Int) : ℚ) / 1000) ≤ 1/2
         ∧ (wrist.x - start.1) * (wrist.x - start.1)
             + (wrist.y - start.2) * (wrist.y - start.2) > SWIPE_MIN_DISTANCE ^ 2
         ∧ velocityExceeds
             ((wrist.x - start.1) * (wrist.x - start.1)
               + (wrist.y - start.2) * (wrist.y - start.2))
             (((now - st.swipeStartTime.getD 0 : Int) : ℚ) / 1000) = true))
    ∧ (∀ (st : RecState) (l : List Landmark) (now : Int) (start : ℚ × ℚ)
        (wrist : Landmark),
        st.swipeStartPosition = some start → lm l WRIST = some wrist →
        (((now - st.swipeStartTime.getD 0 : Int) : ℚ) / 1000) > 1/2 →
        detectSwipe st l now =
          some ({ st with swipeStartPosition := some (wrist.x, wrist.y),
                          swipeStartTime := some now }, none)) := by
  constructor
  · intro st l now st' g h
    match hw : lm l WRIST with
    | none =>
      rw [detectSwipe, hw] at h
      exact absurd h (by simp)
    | some wrist =>
      match hs : st.swipeStartPosition with
      | none =>
        rw [detectSwipe, hw] at h
        simp only [Option.bind_eq_bind, Option.some_bind, hs] at h
        exact absurd h (by simp)
      | some start =>
        refine ⟨start, wrist, rfl, rfl, ?_⟩
        rw [detectSwipe, hw] at h
        simp only [Option.bind_eq_bind, Option.some_bind, hs] at h
        split_ifs at h with hdt hdist hvel hxy hdx
        · exact absurd h (by simp)
        · exact ⟨not_lt.mp hdt, hdist, hvel⟩
        · exact ⟨not_lt.mp hdt, hdist, hvel⟩
        · exact absurd h (by simp)
        · exact absurd h (by simp)
        · exact absurd h (by simp)
  · intro st l now start wrist hs hw hdt
    rw [detectSwipe, hw]
    simp only [Option.bind_eq_bind, Option.some_bind, hs]
    rw [if_pos hdt]
    rfl

/-- Witness for C8: an emitting call (displacement `0.3` over `0.1` s)
and a re-latching call (elapsed `0.601` s). -/
theorem c8_swipe_window_witness :
    (∃ start wrist,
      (⟨none, some (0, 0), some 0⟩ : RecState).swipeStartPosition = some start
      ∧ lm [(⟨3/10, 0, 0⟩ : Landmark)] WRIST = some wrist
      ∧ ((((100 : Int) - (⟨none, some (0, 0), some 0⟩ : RecState).swipeStartTime.getD 0 : Int) : ℚ) / 1000 ≤ 1/2
         ∧ (wrist.x - start.1) * (wrist.x - start.1)
             + (wrist.y - start.2) * (wrist.y - start.2) > SWIPE_MIN_DISTANCE ^ 2
         ∧ velocityExceeds
             ((wrist.x - start.1) * (wrist.x - start.1)
               + (wrist.y - start.2) * (wrist.y - start.2))
             ((((100 : Int) - (⟨none, some (0, 0), some 0⟩ : RecState).swipeStartTime.getD 0 : Int) : ℚ) / 1000) = true))
    ∧ detectSwipe ⟨none, some (0, 0), some 0⟩ [⟨3/10, 0, 0⟩] 601
        = some (⟨none, some (3/10, 0), some 601⟩, none) := by
  constructor
  · refine c8_swipe_window.1 ⟨none, some (0, 0), some 0⟩ [⟨3/10, 0, 0⟩] 100
      ⟨none, none, none⟩ .SWIPE_LEFT ?_
    rw [detectSwipe]
    simp only [lm, WRIST, List.get?, Option.bind_eq_bind, Option.some_bind]
    norm_num [velocityExceeds, SWIPE_MIN_DISTANCE, SWIPE_VELOCITY]
  · exact c8_swipe_window.2 ⟨none, some (0, 0), some 0⟩ [⟨3/10, 0, 0⟩] 601
      (0, 0) ⟨3/10, 0, 0⟩ rfl rfl (by norm_num)

/-! ## Recognition pipeline lemmas (C4, C10) -/

theorem detectSwipe_emits (st : RecState) (l : List Landmark) (now : Int)
    (st' : RecState) (g : Gesture)
    (h : detectSwipe st l now = some (st', some g)) :
    g = .SWIPE_LEFT ∨ g = .SWIPE_RIGHT := by
  match hw : lm l WRIST with
  | none =>
    rw [detectSwipe, hw] at h
    exact absurd h (by simp)
  | some wrist =>
    match hs : st.swipeStartPosition with
    | none =>
      rw [detectSwipe, hw] at h
      simp only [Option.bind_eq_bind, Option.some_bind, hs] at h
      exact absurd h (by simp)
    | some start =>
      rw [detectSwipe, hw] at h
      simp only [Option.bind_eq_bind, Option.some_bind, hs] at h
      split_ifs at h with hdt hdist hvel hxy hdx
      · exact absurd h (by simp)
      · left
        have := (by simpa using h : _ ∧ Gesture.SWIPE_LEFT = g)
        exact this.2.symm
      · right
        have := (by simpa using h : _ ∧ Gesture.SWIPE_RIGHT = g)
        exact this.2.symm
      · exact absurd h (by simp)
      · exact absurd h (by simp)
      · exact absurd h (by simp)

/-- The full case analysis of one `recognize` call on a nonempty landmark
list that returns without throwing: exactly one priority branch fired. -/
theorem recognize_char (st : RecState) (l : List Landmark) (now : Int)
    (st' : RecState) (r : RecoResult) (hne : l.length ≠ 0)
    (h : recognize st (some l) now = some (st', r)) :
    (∃ g, detectSwipe st l now = some (st', some g) ∧ r = ⟨g, 9/10, none⟩)
    ∨ (detectSwipe st l now = some (st', none)
       ∧ ((isPinching l = some true ∧ r = ⟨.PINCH, 95/100, lm l INDEX_TIP⟩)
          ∨ (isPinching l = some false ∧ isFist l = some true
             ∧ r = ⟨.FIST, 9/10, lm l WRIST⟩)
          ∨ (isPinching l = some false ∧ isFist l = some false
             ∧ isPeaceSign l = some true ∧ r = ⟨.PEACE, 85/100, lm l INDEX_TIP⟩)
          ∨ (isPinching l = some false ∧ isFist l = some false
             ∧ isPeaceSign l = some false ∧ isOpenPalm l = some true
             ∧ r = ⟨.PALM, 9/10, lm l WRIST⟩)
          ∨ (isPinching l = some false ∧ isFist l = some false
             ∧ isPeaceSign l = some false ∧ isOpenPalm l = some false
             ∧ isPointing l = some true ∧ r = ⟨.POINT, 85/100, lm l INDEX_TIP⟩)
          ∨ (isPinching l = some false ∧ isFist l = some false
             ∧ isPeaceSign l = some false ∧ isOpenPalm l = some false
             ∧ isPointing l = some false ∧ r = ⟨.NONE, 0, lm l WRIST⟩))) := by
  rw [recognize, if_neg hne] at h
  cases hdet : detectSwipe st l now with
  | none =>
    rw [hdet] at h
    exact absurd h (by simp)
  | some sw =>
    obtain ⟨st₁, og⟩ := sw
    rw [hdet] at h
    simp only [Option.bind_eq_bind, Option.some_bind] at h
    cases og with
    | some g =>
      obtain ⟨heq, hr⟩ := (by simpa using h : st₁ = st' ∧ _ = r)
      subst heq
      exact Or.inl ⟨g, rfl, hr.symm⟩
    | none =>
      cases hp : isPinching l with
      | none =>
        rw [hp] at h
        exact absurd h (by simp)
      | some bp =>
        rw [hp] at h
        simp only [Option.some_bind] at h
        cases bp with
        | true =>
          obtain ⟨heq, hr⟩ := (by simpa using h : st₁ = st' ∧ _ = r)
          subst heq
          exact Or.inr ⟨rfl, Or.inl ⟨rfl, hr.symm⟩⟩
        | false =>
          simp only [Bool.false_eq_true, if_false, ite_false] at h
          cases hf : isFist l with
          | none =>
            rw [hf] at h
            exact absurd h (by simp)
          | some bf =>
            rw [hf] at h
            simp only [Option.some_bind] at h
            cases bf with
            | true =>
              obtain ⟨heq, hr⟩ := (by simpa using h : st₁ = st' ∧ _ = r)
              subst heq
              exact Or.inr ⟨rfl, Or.inr (Or.inl ⟨rfl, rfl, hr.symm⟩)⟩
            | false =>
              simp only [Bool.false_eq_true, if_false, ite_false] at h
              cases hpc : isPeaceSign l with
              | none =>
                rw [hpc] at h
                exact absurd h (by simp)
              | some bpc =>
                rw [hpc] at h
                simp only [Option.some_bind] at h
                cases bpc with
                | true =>
                  obtain ⟨heq, hr⟩ := (by simpa using h : st₁ = st' ∧ _ = r)
                  subst heq
                  exact Or.inr ⟨rfl, Or.inr (Or.inr (Or.inl ⟨rfl, rfl, rfl, hr.symm⟩))⟩
                | false =>
                  simp only [Bool.false_eq_true, if_false, ite_false] at h
                  cases hpm : isOpenPalm l with
                  | none =>
                    rw [hpm] at h
                    exact absurd h (by simp)
                  | some bpm =>
                    rw [hpm] at h
                    simp only [Option.some_bind] at h
                    cases bpm with
                    | true =>
                      obtain ⟨heq, hr⟩ := (by simpa using h : st₁ = st' ∧ _ = r)
                      subst heq
                      exact Or.inr ⟨rfl,
                        Or.inr (Or.inr (Or.inr (Or.inl ⟨rfl, rfl, rfl, rfl, hr.symm⟩)))⟩
                    | false =>
                      simp only [Bool.false_eq_true, if_false, ite_false] at h
                      cases hpt : isPointing l with
                      | none =>
                        rw [hpt] at h
                        exact absurd h (by simp)
                      | some bpt =>
                        rw [hpt] at h
                        simp only [Option.some_bind] at h
                        cases bpt with
                        | true =>
                          obtain ⟨heq, hr⟩ := (by simpa using h : st₁ = st' ∧ _ = r)
                          subst heq
                          exact Or.inr ⟨rfl, Or.inr (Or.inr (Or.inr (Or.inr
                            (Or.inl ⟨rfl, rfl, rfl, rfl, rfl, hr.symm⟩))))⟩
                        | false =>
                          simp only [Bool.false_eq_true, if_false, ite_false] at h
                          obtain ⟨heq, hr⟩ := (by simpa using h : st₁ = st' ∧ _ = r)
                          subst heq
                          exact Or.inr ⟨rfl, Or.inr (Or.inr (Or.inr (Or.inr
                            (Or.inr ⟨rfl, rfl, rfl, rfl, rfl, hr.symm⟩))))⟩

theorem getExtendedFingers_parts (l : List Landmark) (f : Fingers)
    (h : getExtendedFingers l = some f) :
    isThumbExtended l = some f.thumb
    ∧ isFingerExtended l INDEX_TIP INDEX_PIP INDEX_MCP = some f.index
    ∧ isFingerExtended l MIDDLE_TIP MIDDLE_PIP MIDDLE_MCP = some f.middle
    ∧ isFingerExtended l RING_TIP RING_PIP RING_MCP = some f.ring
    ∧ isFingerExtended l PINKY_TIP PINKY_PIP PINKY_MCP = some f.pinky := by
  match hth : isThumbExtended l,
      hi : isFingerExtended l INDEX_TIP INDEX_PIP INDEX_MCP,
      hm : isFingerExtended l MIDDLE_TIP MIDDLE_PIP MIDDLE_MCP,
      hr : isFingerExtended l RING_TIP RING_PIP RING_MCP,
      hp : isFingerExtended l PINKY_TIP PINKY_PIP PINKY_MCP with
  | none, _, _, _, _ => simp [getExtendedFingers, hth] at h
  | some t, none, _, _, _ => simp [getExtendedFingers, hth, hi] at h
  | some t, some i, none, _, _ => simp [getExtendedFingers, hth, hi, hm] at h
  | some t, some i, some m, none, _ => simp [getExtendedFingers, hth, hi, hm, hr] at h
  | some t, some i, some m, some r2, none =>
    simp [getExtendedFingers, hth, hi, hm, hr, hp] at h
  | some t, some i, some m, some r2, some p =>
    have : f = ⟨t, i, m, r2, p⟩ := by
      simp [getExtendedFingers, hth, hi, hm, hr, hp] at h
      exact h.symm
    subst this
    exact ⟨rfl, rfl, rfl, rfl, rfl⟩

theorem getExtendedFingers_mk (l : List Landmark) (t i m r p : Bool)
    (hth : isThumbExtended l = some t)
    (hi : isFingerExtended l INDEX_TIP INDEX_PIP INDEX_MCP = some i)
    (hm : isFingerExtended l MIDDLE_TIP MIDDLE_PIP MIDDLE_MCP = some m)
    (hr : isFingerExtended l RING_TIP RING_PIP RING_MCP = some r)
    (hp : isFingerExtended l PINKY_TIP PINKY_PIP PINKY_MCP = some p) :
    getExtendedFingers l = some ⟨t, i, m, r, p⟩ := by
  rw [getExtendedFingers, hth, hi, hm, hr, hp]
  rfl

theorem getExtendedFingers_of_isFist (l : List Landmark) (b : Bool)
    (h : isFist l = some b) : ∃ f, getExtendedFingers l = some f := by
  cases hg : getExtendedFingers l with
  | none =>
    rw [isFist, hg] at h
    exact absurd h (by simp)
  | some f => exact ⟨f, rfl⟩

theorem isFist_eq (l : List Landmark) (f : Fingers)
    (h : getExtendedFingers l = some f) :
    isFist l = some (decide (f.extendedCount ≤ 1)) := by
  rw [isFist, h]
  rfl

theorem isOpenPalm_eq (l : List Landmark) (f : Fingers)
    (h : getExtendedFingers l = some f) :
    isOpenPalm l = some (decide (4 ≤ f.extendedCount)) := by
  rw [isOpenPalm, h]
  rfl

theorem isPeaceSign_eq (l : List Landmark) (f : Fingers)
    (h : getExtendedFingers l = some f) :
    isPeaceSign l = some (f.index && f.middle && !f.ring && !f.pinky) := by
  rw [isPeaceSign, h]
  rfl

theorem isPointing_eq (l : List Landmark) (f : Fingers)
    (h : getExtendedFingers l = some f) :
    isPointing l = some (f.index && !f.middle && !f.ring && !f.pinky) := by
  rw [isPointing, h]
  rfl

/-- **C4 counterexample** — A one-landmark input has fewer than 21
landmarks, yet `recognize` is not guarded against it: the call proceeds
past `detectSwipe` into `isPinching`, reads the missing landmark with
index `THUMB_TIP = 4`, and throws a `TypeError` (embedded as `none`)
instead of returning NONE with confidence 0. -/
theorem c4_counterexample :
    [(⟨0, 0, 0⟩ : Landmark)].length < 21
    ∧ recognize RecState.init (some [⟨0, 0, 0⟩]) 0 = none :=
  ⟨by decide, rfl⟩

/-- **C4 (amended)** — Only a missing (`null`/`undefined`) input or an
empty landmark list is guarded: for exactly those inputs `recognize`
resets its rolling state (`previousHandPosition` and
`swipeStartPosition`) and returns NONE with confidence 0 without any
landmark access; an input with between 1 and 20 landmarks is NOT guarded
and can throw on an out-of-range landmark access (see the
counterexample). -/
theorem c4_guard_missing_input : ∀ (st : RecState) (now : Int),
    recognize st none now
      = some ({ st with previousHandPosition := none, swipeStartPosition := none },
              ⟨.NONE, 0, none⟩)
    ∧ recognize st (some []) now
      = some ({ st with previousHandPosition := none, swipeStartPosition := none },
              ⟨.NONE, 0, none⟩) :=
  fun _ _ => ⟨rfl, rfl⟩

/-- A 21-landmark test hand: index finger extended, middle/ring/pinky
curled, thumb tip supplied by the caller. -/
def testHand (thumbTip : Landmark) : List Landmark :=
  [⟨0, 1, 0⟩, ⟨-3/10, 0, 0⟩, ⟨-1/2, 0, 0⟩, ⟨-9/20, 0, 0⟩, thumbTip,
   ⟨0, 0, 0⟩, ⟨1/10, 0, 0⟩, ⟨2/10, 0, 0⟩, ⟨1/2, 0, 0⟩,
   ⟨1, 0, 0⟩, ⟨11/10, 0, 0⟩, ⟨12/10, 0, 0⟩, ⟨21/20, 0, 0⟩,
   ⟨2, 0, 0⟩, ⟨21/10, 0, 0⟩, ⟨22/10, 0, 0⟩, ⟨41/20, 0, 0⟩,
   ⟨3, 0, 0⟩, ⟨31/10, 0, 0⟩, ⟨32/10, 0, 0⟩, ⟨61/20, 0, 0⟩]

theorem testHand_fingers (tt : Landmark) :
    isFingerExtended (testHand tt) INDEX_TIP INDEX_PIP INDEX_MCP = some true
    ∧ isFingerExtended (testHand tt) MIDDLE_TIP MIDDLE_PIP MIDDLE_MCP = some false
    ∧ isFingerExtended (testHand tt) RING_TIP RING_PIP RING_MCP = some false
    ∧ isFingerExtended (testHand tt) PINKY_TIP PINKY_PIP PINKY_MCP = some false := by
  refine ⟨?_, ?_, ?_, ?_⟩ <;>
    (simp only [isFingerExtended, distanceSq?, distanceSq, lm, testHand,
       INDEX_TIP, INDEX_PIP, INDEX_MCP, MIDDLE_TIP, MIDDLE_PIP, MIDDLE_MCP,
       RING_TIP, RING_PIP, RING_MCP, PINKY_TIP, PINKY_PIP, PINKY_MCP,
       List.get?, Option.some_bind, Option.some.injEq,
       decide_eq_true_eq, decide_eq_false_iff_not]
     norm_num)

theorem pinchHand_thumb : isThumbExtended (testHand ⟨9/20, 0, 0⟩) = some false := by
  simp only [isThumbExtended, distanceSq?, distanceSq, lm, testHand,
    THUMB_TIP, THUMB_MCP, INDEX_MCP, List.get?, Option.some_bind,
    Option.some.injEq, decide_eq_false_iff_not]
  norm_num

theorem pinchHand_pinch : isPinching (testHand ⟨9/20, 0, 0⟩) = some true := by
  simp only [isPinching, distanceSq?, distanceSq, lm, testHand,
    THUMB_TIP, INDEX_TIP, PINCH_THRESHOLD, List.get?, Option.some_bind,
    Option.some.injEq, decide_eq_true_eq]
  norm_num

theorem fistHand_thumb : isThumbExtended (testHand ⟨-2/5, 0, 0⟩) = some false := by
  simp only [isThumbExtended, distanceSq?, distanceSq, lm, testHand,
    THUMB_TIP, THUMB_MCP, INDEX_MCP, List.get?, Option.some_bind,
    Option.some.injEq, decide_eq_false_iff_not]
  norm_num

theorem fistHand_pinch : isPinching (testHand ⟨-2/5, 0, 0⟩) = some false := by
  simp only [isPinching, distanceSq?, distanceSq, lm, testHand,
    THUMB_TIP, INDEX_TIP, PINCH_THRESHOLD, List.get?, Option.some_bind,
    Option.some.injEq, decide_eq_false_iff_not]
  norm_num

theorem pointHand_thumb : isThumbExtended (testHand ⟨-3/5, 0, 0⟩) = some true := by
  simp only [isThumbExtended, distanceSq?, distanceSq, lm, testHand,
    THUMB_TIP, THUMB_MCP, INDEX_MCP, List.get?, Option.some_bind,
    Option.some.injEq, decide_eq_true_eq]
  norm_num

theorem pointHand_pinch : isPinching (testHand ⟨-3/5, 0, 0⟩) = some false := by
  simp only [isPinching, distanceSq?, distanceSq, lm, testHand,
    THUMB_TIP, INDEX_TIP, PINCH_THRESHOLD, List.get?, Option.some_bind,
    Option.some.injEq, decide_eq_false_iff_not]
  norm_num

/-- On a fresh recognizer state, `detectSwipe` latches the wrist of a
test hand and emits nothing. -/
theorem detectSwipe_init (tt : Landmark) (now : Int) :
    detectSwipe RecState.init (testHand tt) now
      = some (⟨none, some (0, 1), some now⟩, none) := rfl

theorem recognize_pinchHand :
    recognize RecState.init (some (testHand ⟨9/20, 0, 0⟩)) 0
      = some (⟨none, some (0, 1), some 0⟩,
              ⟨.PINCH, 95/100, some ⟨1/2, 0, 0⟩⟩) := by
  rw [recognize, if_neg (by decide), detectSwipe_init]
  simp only [Option.bind_eq_bind, Option.some_bind]
  rw [pinchHand_pinch]
  simp only [Option.some_bind, if_true]
  rfl

theorem recognize_fistHand :
    recognize RecState.init (some (testHand ⟨-2/5, 0, 0⟩)) 0
      = some (⟨none, some (0, 1), some 0⟩,
              ⟨.FIST, 9/10, some ⟨0, 1, 0⟩⟩) := by
  have hg := getExtendedFingers_mk _ false true false false false fistHand_thumb
    (testHand_fingers _).1 (testHand_fingers _).2.1
    (testHand_fingers _).2.2.1 (testHand_fingers _).2.2.2
  have hfist : isFist (testHand ⟨-2/5, 0, 0⟩) = some true := by
    rw [isFist_eq _ _ hg]
    rfl
  rw [recognize, if_neg (by decide), detectSwipe_init]
  simp only [Option.bind_eq_bind, Option.some_bind]
  rw [fistHand_pinch]
  simp only [Option.some_bind, Bool.false_eq_true, if_false, ite_false]
  rw [hfist]
  simp only [Option.some_bind, if_true]
  rfl

theorem recognize_pointHand :
    recognize RecState.init (some (testHand ⟨-3/5, 0, 0⟩)) 0
      = some (⟨none, some (0, 1), some 0⟩,
              ⟨.POINT, 85/100, some ⟨1/2, 0, 0⟩⟩) := by
  have hg := getExtendedFingers_mk _ true true false false false pointHand_thumb
    (testHand_fingers _).1 (testHand_fingers _).2.1
    (testHand_fingers _).2.2.1 (testHand_fingers _).2.2.2
  have hfist : isFist (testHand ⟨-3/5, 0, 0⟩) = some false := by
    rw [isFist_eq _ _ hg]
    rfl
  have hpeace : isPeaceSign (testHand ⟨-3/5, 0, 0⟩) = some false := by
    rw [isPeaceSign_eq _ _ hg]
    rfl
  have hpalm : isOpenPalm (testHand ⟨-3/5, 0, 0⟩) = some false := by
    rw [isOpenPalm_eq _ _ hg]
    rfl
  have hpoint : isPointing (testHand ⟨-3/5, 0, 0⟩) = some true := by
    rw [isPointing_eq _ _ hg]
    rfl
  rw [recognize, if_neg (by decide), detectSwipe_init]
  simp only [Option.bind_eq_bind, Option.some_bind]
  rw [pointHand_pinch]
  simp only [Option.some_bind, Bool.false_eq_true, if_false, ite_false]
  rw [hfist]
  simp only [Option.some_bind, Bool.false_eq_true, if_false, ite_false]
  rw [hpeace]
  simp only [Option.some_bind, Bool.false_eq_true, if_false, ite_false]
  rw [hpalm]
  simp only [Option.some_bind, Bool.false_eq_true, if_false, ite_false]
  rw [hpoint]
  simp only [Option.some_bind, if_true]
  rfl

/-- **C10 counterexample** — A 21-landmark input whose index finger is
the sole finger (thumb included) passing the extension test does have
extended-count `≤ 1` (`isFist` reports true), but with the thumb tip
inside the pinch threshold of the index tip it is classified PINCH —
checked before FIST — not FIST. -/
theorem c10_counterexample :
    isFist (testHand ⟨9/20, 0, 0⟩) = some true
    ∧ isThumbExtended (testHand ⟨9/20, 0, 0⟩) = some false
    ∧ (recognize RecState.init (some (testHand ⟨9/20, 0, 0⟩)) 0).map
        (fun q => q.2.gesture) = some .PINCH
    ∧ Gesture.PINCH ≠ Gesture.FIST := by
  have hg := getExtendedFingers_mk _ false true false false false pinchHand_thumb
    (testHand_fingers _).1 (testHand_fingers _).2.1
    (testHand_fingers _).2.2.1 (testHand_fingers _).2.2.2
  refine ⟨?_, pinchHand_thumb, ?_, by decide⟩
  · rw [isFist_eq _ _ hg]
    rfl
  · rw [recognize_pinchHand]
    rfl

/-- **C10 (amended)** — For every 21-landmark input, `recognize` returns
POINT only if the thumb-extension test succeeds in addition to the index
finger being the only other extended finger; and an input where the
index finger is the sole finger (thumb included) passing the extension
test has extended-count `≤ 1` (`isFist` true) and is never classified
POINT — it is classified FIST provided the pinch test fails and no swipe
is emitted on that call (PINCH and swipe checks precede the fist
check). -/
theorem c10_point_thumb :
    (∀ (l : List Landmark) (st : RecState) (now : Int) (st' : RecState)
        (r : RecoResult),
        l.length = 21 →
        recognize st (some l) now = some (st', r) →
        r.gesture = .POINT →
        isThumbExtended l = some true ∧ isPointing l = some true)
    ∧ (∀ (l : List Landmark) (st : RecState) (now : Int) (st' : RecState)
        (r : RecoResult),
        l.length = 21 →
        isThumbExtended l = some false →
        isFingerExtended l INDEX_TIP INDEX_PIP INDEX_MCP = some true →
        isFingerExtended l MIDDLE_TIP MIDDLE_PIP MIDDLE_MCP = some false →
        isFingerExtended l RING_TIP RING_PIP RING_MCP = some false →
        isFingerExtended l PINKY_TIP PINKY_PIP PINKY_MCP = some false →
        recognize st (some l) now = some (st', r) →
        isFist l = some true
        ∧ r.gesture ≠ .POINT
        ∧ (isPinching l = some false →
            (detectSwipe st l now).map (fun q => q.2) = some none →
            r.gesture = .FIST)) := by
  constructor
  · intro l st now st' r hlen hrec hpt
    have hchar := recognize_char st l now st' r (by omega) hrec
    rcases hchar with ⟨g, hdet, hr⟩ | ⟨hdet, hbr⟩
    · rcases detectSwipe_emits _ _ _ _ _ hdet with h | h <;>
        rw [hr, h] at hpt <;> exact absurd hpt (by decide)
    · rcases hbr with ⟨_, hr⟩ | ⟨_, _, hr⟩ | ⟨_, _, _, hr⟩ | ⟨_, _, _, _, hr⟩ |
        ⟨hp, hf, hpc, hpm, hptg, hr⟩ | ⟨_, _, _, _, _, hr⟩
      · rw [hr] at hpt
        exact absurd hpt (by simp)
      · rw [hr] at hpt
        exact absurd hpt (by simp)
      · rw [hr] at hpt
        exact absurd hpt (by simp)
      · rw [hr] at hpt
        exact absurd hpt (by simp)
      · obtain ⟨f, hg⟩ := getExtendedFingers_of_isFist l false hf
        have hparts := getExtendedFingers_parts l f hg
        have hcount : ¬ (f.extendedCount ≤ 1) := by
          have := isFist_eq l f hg
          rw [hf] at this
          simpa using this.symm
        have hpoint : (f.index && !f.middle && !f.ring && !f.pinky) = true := by
          have := isPointing_eq l f hg
          rw [hptg] at this
          simpa using this.symm
        obtain ⟨t, i, m, r2, p⟩ := f
        simp only [Bool.and_eq_true, Bool.not_eq_true'] at hpoint
        obtain ⟨⟨⟨hi', hm'⟩, hr'⟩, hp'⟩ := hpoint
        subst hi' hm' hr' hp'
        cases t with
        | false => simp [Fingers.extendedCount] at hcount
        | true => exact ⟨hparts.1, hptg⟩
      · rw [hr] at hpt
        exact absurd hpt (by simp)
  · intro l st now st' r hlen hth hi hm hr2 hp2 hrec
    have hg := getExtendedFingers_mk l false true false false false hth hi hm hr2 hp2
    have hfist : isFist l = some true := by
      rw [isFist_eq _ _ hg]
      rfl
    refine ⟨hfist, ?_, ?_⟩
    · have hchar := recognize_char st l now st' r (by omega) hrec
      rcases hchar with ⟨g, hdet, hr⟩ | ⟨hdet, hbr⟩
      · rcases detectSwipe_emits _ _ _ _ _ hdet with h | h <;>
          rw [hr, h] <;> simp
      · rcases hbr with ⟨_, hr⟩ | ⟨_, _, hr⟩ | ⟨_, hf1, _, _⟩ | ⟨_, hf1, _, _, _⟩ |
          ⟨_, hf1, _, _, _, _⟩ | ⟨_, hf1, _, _, _, _⟩
        · rw [hr]
          simp
        · rw [hr]
          simp
        · rw [hfist] at hf1
          exact absurd hf1 (by simp)
        · rw [hfist] at hf1
          exact absurd hf1 (by simp)
        · rw [hfist] at hf1
          exact absurd hf1 (by simp)
        · rw [hfist] at hf1
          exact absurd hf1 (by simp)
    · intro hpin hmap
      have hchar := recognize_char st l now st' r (by omega) hrec
      rcases hchar with ⟨g, hdet, hr⟩ | ⟨hdet, hbr⟩
      · rw [hdet] at hmap
        exact absurd hmap (by simp)
      · rcases hbr with ⟨hp1, hr⟩ | ⟨_, _, hr⟩ | ⟨_, hf1, _, _⟩ | ⟨_, hf1, _, _, _⟩ |
          ⟨_, hf1, _, _, _, _⟩ | ⟨_, hf1, _, _, _, _⟩
        · rw [hpin] at hp1
          exact absurd hp1 (by simp)
        · rw [hr]
        · rw [hfist] at hf1
          exact absurd hf1 (by simp)
        · rw [hfist] at hf1
          exact absurd hf1 (by simp)
        · rw [hfist] at hf1
          exact absurd hf1 (by simp)
        · rw [hfist] at hf1
          exact absurd hf1 (by simp)

/-- Witness for C10 (amended): the POINT hand (thumb extended) and the
FIST hand (thumb curled, not pinching, no swipe). -/
theorem c10_point_thumb_witness :
    (isThumbExtended (testHand ⟨-3/5, 0, 0⟩) = some true
     ∧ isPointing (testHand ⟨-3/5, 0, 0⟩) = some true)
    ∧ (isFist (testHand ⟨-2/5, 0, 0⟩) = some true
       ∧ (⟨.FIST, 9/10, some ⟨0, 1, 0⟩⟩ : RecoResult).gesture ≠ .POINT
       ∧ (⟨.FIST, 9/10, some ⟨0, 1, 0⟩⟩ : RecoResult).gesture = .FIST) := by
  constructor
  · exact c10_point_thumb.1 (testHand ⟨-3/5, 0, 0⟩) RecState.init 0
      ⟨none, some (0, 1), some 0⟩ ⟨.POINT, 85/100, some ⟨1/2, 0, 0⟩⟩
      rfl recognize_pointHand rfl
  · have h := c10_point_thumb.2 (testHand ⟨-2/5, 0, 0⟩) RecState.init 0
      ⟨none, some (0, 1), some 0⟩ ⟨.FIST, 9/10, some ⟨0, 1, 0⟩⟩
      rfl fistHand_thumb (testHand_fingers _).1 (testHand_fingers _).2.1
      (testHand_fingers _).2.2.1 (testHand_fingers _).2.2.2 recognize_fistHand
    exact ⟨h.1, h.2.1, h.2.2 fistHand_pinch (by rw [detectSwipe_init]; rfl)⟩

end GestureVoxel
